import Mathlib

/-!
A verification development for a motorsport analytics dashboard.

The program loads five tabular files (races, results, drivers, constructors,
circuits), joins them into a denormalized fact table, derives filtered views
(winners, podiums, pole sitters), and answers chart queries with a repeated
filter / group-aggregate / rank / cumulative-sum pattern.

This file gives a shallow embedding of those operations: tables are lists of
structure values, the dataframe operations (boolean-mask filtering, groupby
with sorted keys, nlargest with stable ties, sort_values, groupby cumsum,
inner merge) are modelled as list functions, and the properties claimed of
the program are proved about the embedding.
-/

namespace F1

/-! ## String key order

The dataframe library sorts group keys; string keys are compared
lexicographically by code point.  We use an explicitly computable
lexicographic comparison on the character data of a string. -/

/-- Lexicographic comparison of character lists by code point, non-strict. -/
def charListLe : List Char → List Char → Bool
  | [], _ => true
  | _ :: _, [] => false
  | a :: as, b :: bs =>
    if a = b then charListLe as bs else decide (a.toNat < b.toNat)

/-- Non-strict lexicographic order on strings, as a proposition. -/
def strKeyLe (a b : String) : Prop := charListLe a.data b.data = true

instance : DecidableRel strKeyLe := fun a b =>
  inferInstanceAs (Decidable (charListLe a.data b.data = true))

instance : IsTotal String strKeyLe := by
  constructor
  intro a b
  show charListLe a.data b.data = true ∨ charListLe b.data a.data = true
  generalize a.data = l
  generalize b.data = m
  induction l generalizing m with
  | nil => exact Or.inl rfl
  | cons x xs ih =>
    cases m with
    | nil => exact Or.inr rfl
    | cons y ys =>
      by_cases hxy : x = y
      · subst hxy
        simpa [charListLe] using ih ys
      · have hyx : y ≠ x := fun h => hxy h.symm
        have htoNat : x.toNat ≠ y.toNat := by
          intro h
          exact hxy (Char.ext (UInt32.toNat.inj h))
        rcases Nat.lt_or_ge x.toNat y.toNat with h | h
        · exact Or.inl (by simp [charListLe, hxy, h])
        · have h' : y.toNat < x.toNat := lt_of_le_of_ne h (fun hh => htoNat hh.symm)
          exact Or.inr (by simp [charListLe, hyx, h'])

instance : IsTrans String strKeyLe := by
  constructor
  intro a b c
  show charListLe a.data b.data = true → charListLe b.data c.data = true →
    charListLe a.data c.data = true
  generalize a.data = l
  generalize b.data = m
  generalize c.data = k
  induction l generalizing m k with
  | nil => intro _ _; rfl
  | cons x xs ih =>
    cases m with
    | nil => intro h; simp [charListLe] at h
    | cons y ys =>
      cases k with
      | nil => intro _ h; simp [charListLe] at h
      | cons z zs =>
        intro h1 h2
        by_cases hxy : x = y
        · subst hxy
          simp only [charListLe, if_pos rfl] at h1
          by_cases hyz : x = z
          · subst hyz
            simp only [charListLe, if_pos rfl] at h2 ⊢
            exact ih ys zs h1 h2
          · simpa [charListLe, hyz] using h2
        · simp only [charListLe, if_neg hxy, decide_eq_true_eq] at h1
          by_cases hyz : y = z
          · subst hyz
            simpa [charListLe, hxy] using h1
          · simp only [charListLe, if_neg hyz, decide_eq_true_eq] at h2
            have hxz : x ≠ z := by
              intro h
              subst h
              have : x.toNat < x.toNat := h1.trans h2
              exact absurd this (lt_irrefl _)
            simp [charListLe, hxz, h1.trans h2]

instance : IsAntisymm String strKeyLe := by
  constructor
  intro a b h1 h2
  have hd : a.data = b.data := by
    revert h1 h2
    show charListLe a.data b.data = true → charListLe b.data a.data = true →
      a.data = b.data
    generalize a.data = l
    generalize b.data = m
    induction l generalizing m with
    | nil =>
      cases m with
      | nil => intro _ _; rfl
      | cons y ys => intro _ h; simp [charListLe] at h
    | cons x xs ih =>
      cases m with
      | nil => intro h _; simp [charListLe] at h
      | cons y ys =>
        intro h1 h2
        by_cases hxy : x = y
        · subst hxy
          simp only [charListLe, if_pos rfl] at h1 h2
          rw [ih ys h1 h2]
        · have hyx : y ≠ x := fun h => hxy h.symm
          simp only [charListLe, if_neg hxy, decide_eq_true_eq] at h1
          simp only [charListLe, if_neg hyx, decide_eq_true_eq] at h2
          exact absurd (h1.trans h2) (lt_irrefl _)
  cases a
  cases b
  exact congrArg String.mk hd

/-! ## Other key orders used by groupby

`groupby` sorts its keys; the keys used by the program are a string
(driver or constructor name), an integer (season year), and a
(year, name) pair compared lexicographically. -/

/-- Order on integer keys (season year). -/
def intKeyLe (a b : Int) : Prop := a ≤ b

instance : DecidableRel intKeyLe := fun a b => inferInstanceAs (Decidable (a ≤ b))

instance : IsTotal Int intKeyLe := ⟨fun a b => le_total a b⟩

instance : IsTrans Int intKeyLe := ⟨fun _ _ _ h1 h2 => le_trans h1 h2⟩

instance : IsAntisymm Int intKeyLe := ⟨fun _ _ h1 h2 => le_antisymm h1 h2⟩

/-- Lexicographic order on (year, name) group keys: year first, then name. -/
def ynKeyLe (a b : Int × String) : Prop :=
  a.1 < b.1 ∨ (a.1 = b.1 ∧ strKeyLe a.2 b.2)

instance : DecidableRel ynKeyLe := fun a b =>
  inferInstanceAs (Decidable (a.1 < b.1 ∨ (a.1 = b.1 ∧ strKeyLe a.2 b.2)))

instance : IsTotal (Int × String) ynKeyLe := by
  constructor
  intro a b
  rcases lt_trichotomy a.1 b.1 with h | h | h
  · exact Or.inl (Or.inl h)
  · rcases IsTotal.total (r := strKeyLe) a.2 b.2 with hs | hs
    · exact Or.inl (Or.inr ⟨h, hs⟩)
    · exact Or.inr (Or.inr ⟨h.symm, hs⟩)
  · exact Or.inr (Or.inl h)

instance : IsTrans (Int × String) ynKeyLe := by
  constructor
  intro a b c h1 h2
  rcases h1 with h1 | ⟨he1, hs1⟩
  · rcases h2 with h2 | ⟨he2, _⟩
    · exact Or.inl (h1.trans h2)
    · exact Or.inl (he2 ▸ h1)
  · rcases h2 with h2 | ⟨he2, hs2⟩
    · exact Or.inl (he1 ▸ h2)
    · exact Or.inr ⟨he1.trans he2, Trans.trans hs1 hs2⟩

instance : IsAntisymm (Int × String) ynKeyLe := by
  constructor
  intro a b h1 h2
  rcases h1 with h1 | ⟨he1, hs1⟩
  · rcases h2 with h2 | ⟨he2, _⟩
    · exact absurd (h1.trans h2) (lt_irrefl _)
    · exact absurd h1 (he2 ▸ lt_irrefl _)
  · rcases h2 with h2 | ⟨he2, hs2⟩
    · exact absurd h2 (he1 ▸ lt_irrefl _)
    · have := antisymm hs1 hs2
      exact Prod.ext he1 this

/-! ## Aggregated tables and the value order used by nlargest/sort_values

An aggregated table has one row per group key with a single numeric
aggregate value (counts and point sums are both embedded in ℚ). -/

/-- One row of a `groupby(...).agg(...).reset_index()` result. -/
structure AggRow (K : Type) where
  key : K
  value : ℚ
deriving DecidableEq

/-- Comparison used by `nlargest`: `a` before `b` when the value of `a`
is at least the value of `b` (descending by value). -/
def valDesc {K : Type} (a b : AggRow K) : Prop := b.value ≤ a.value

instance {K : Type} : DecidableRel (valDesc (K := K)) := fun a b =>
  inferInstanceAs (Decidable (b.value ≤ a.value))

instance {K : Type} : IsTotal (AggRow K) valDesc := ⟨fun a b => le_total b.value a.value⟩

instance {K : Type} : IsTrans (AggRow K) valDesc := ⟨fun _ _ _ h1 h2 => le_trans h2 h1⟩

/-- Comparison used by `sort_values(..., ascending=True)`. -/
def valAsc {K : Type} (a b : AggRow K) : Prop := a.value ≤ b.value

instance {K : Type} : DecidableRel (valAsc (K := K)) := fun a b =>
  inferInstanceAs (Decidable (a.value ≤ b.value))

instance {K : Type} : IsTotal (AggRow K) valAsc := ⟨fun a b => le_total a.value b.value⟩

instance {K : Type} : IsTrans (AggRow K) valAsc := ⟨fun _ _ _ h1 h2 => le_trans h1 h2⟩

/-! ## Data model

The five input tables and the denormalized fact table.  Numeric columns
that pandas coerces with to_numeric (errors = coerce) are embedded as
`Option` values: `none` is the "no value" (NaN) produced for missing or
non-numeric entries.  `position` and `grid` are integer-valued when
present; `points` may be fractional. -/

/-- One row of races.csv (the columns the program uses). -/
structure RaceRow where
  raceId : Nat
  year : Int
  name : String
  circuitId : Nat
deriving DecidableEq

/-- One row of results.csv (the columns the program uses). -/
structure ResultRow where
  raceId : Nat
  driverId : Nat
  constructorId : Nat
  position : Option Int
  points : Option ℚ
  grid : Option Int
deriving DecidableEq

/-- One row of drivers.csv (the columns the program uses). -/
structure DriverRow where
  driverId : Nat
  forename : String
  surname : String
  nationality : String
deriving DecidableEq

/-- One row of constructors.csv (the columns the program uses). -/
structure ConstructorRow where
  constructorId : Nat
  name : String
  nationality : String
deriving DecidableEq

/-- One row of circuits.csv (the columns the program uses). -/
structure CircuitRow where
  circuitId : Nat
  name : String
  country : String
deriving DecidableEq

/-- The five loaded input tables. -/
structure RawTables where
  races : List RaceRow
  results : List ResultRow
  drivers : List DriverRow
  constructors : List ConstructorRow
  circuits : List CircuitRow
deriving DecidableEq

/-- One row of the denormalized fact table `df` produced by the four
merges (lines 25-45 of app.py), with `driver_name` derived as
forename ++ " " ++ surname and the name/nationality collisions
disambiguated per the rename/suffix arguments. -/
structure FactRow where
  raceId : Nat
  driverId : Nat
  constructorId : Nat
  circuitId : Nat
  year : Int
  name_race : String
  driver_name : String
  nationality_driver : String
  name_constructor : String
  nationality_constructor : String
  name_circuit : String
  country : String
  position : Option Int
  points : Option ℚ
  grid : Option Int
deriving DecidableEq

/-- pandas inner `merge` on an integer key: each left row is paired with
every matching right row; the order of left keys is preserved. -/
def mergeOn {A B : Type} (keyL : A → Nat) (keyR : B → Nat)
    (L : List A) (R : List B) : List (A × B) :=
  L.flatMap fun a => (R.filter fun b => keyR b == keyL a).map fun b => (a, b)

/-- The tuple produced by joining Result to Race, Driver, Constructor and
Circuit, in the order the program performs the merges. -/
def JoinedRow : Type :=
  (((ResultRow × RaceRow) × DriverRow) × ConstructorRow) × CircuitRow

/-- The four inner merges of lines 25-41: Result⋈Race on raceId, then
⋈Driver on driverId, then ⋈Constructor on constructorId, then ⋈Circuit on
the circuitId carried over from Race. -/
def joinAll (tb : RawTables) : List JoinedRow :=
  mergeOn (fun x => x.1.1.2.circuitId) (fun c => c.circuitId)
    (mergeOn (fun x => x.1.1.constructorId) (fun c => c.constructorId)
      (mergeOn (fun x => x.1.driverId) (fun d => d.driverId)
        (mergeOn (fun r => r.raceId) (fun r => r.raceId) tb.results tb.races)
        tb.drivers)
      tb.constructors)
    tb.circuits

/-- Flatten one joined tuple into a fact-table row, applying the column
selections and renames of the merge calls. -/
def mkFactRow (x : JoinedRow) : FactRow :=
  { raceId := x.1.1.1.1.raceId
    driverId := x.1.1.1.1.driverId
    constructorId := x.1.1.1.1.constructorId
    circuitId := x.1.1.1.2.circuitId
    year := x.1.1.1.2.year
    name_race := x.1.1.1.2.name
    driver_name := x.1.1.2.forename ++ " " ++ x.1.1.2.surname
    nationality_driver := x.1.1.2.nationality
    name_constructor := x.1.2.name
    nationality_constructor := x.1.2.nationality
    name_circuit := x.2.name
    country := x.2.country
    position := x.1.1.1.1.position
    points := x.1.1.1.1.points
    grid := x.1.1.1.1.grid }

/-- The denormalized fact table `df`. -/
def buildDf (tb : RawTables) : List FactRow := (joinAll tb).map mkFactRow

/-! ## Derived views (lines 48-50)

Each view keeps the rows where a coerced column equals a constant.  A
pandas comparison of a NaN
cell with a number is False, and `isin` never matches NaN, so rows whose
coerced value is `none` are excluded. -/

/-- The winners view: the fact rows whose position equals 1. -/
def winnersOf (df : List FactRow) : List FactRow :=
  df.filter fun r => decide (r.position = some 1)

/-- The podiums view: the fact rows whose position is in {1, 2, 3}. -/
def podiumsOf (df : List FactRow) : List FactRow :=
  df.filter fun r =>
    decide (r.position = some 1) || decide (r.position = some 2) ||
      decide (r.position = some 3)

/-- The pole-sitters view: the fact rows whose grid equals 1. -/
def polesOf (df : List FactRow) : List FactRow :=
  df.filter fun r => decide (r.grid = some 1)

/-- A pandas `sum()` over a points column: NaN entries contribute 0. -/
def sumPoints (l : List FactRow) : ℚ :=
  (l.map fun r => r.points.getD 0).sum

/-! ## The query operations -/

/-- The year-range mask (year of the row between lo and hi), applied
by every chart callback.  Both bounds are inclusive. -/
def filterByYear {A : Type} (yearOf : A → Int) (lo hi : Int) (t : List A) : List A :=
  t.filter fun r => decide (lo ≤ yearOf r) && decide (yearOf r ≤ hi)

/-- Number of distinct values of a column (pandas `nunique`). -/
def countDistinct {A B : Type} [DecidableEq B] (f : A → B) (t : List A) : Nat :=
  ((t.map f).dedup).length

/-- The groupby aggregation: one row per distinct
key, keys sorted ascending (the groupby default sort), with the
aggregate computed over the rows of that group. -/
def aggregateBy {A K : Type} [DecidableEq K] (r : K → K → Prop) [DecidableRel r]
    (key : A → K) (f : List A → ℚ) (t : List A) : List (AggRow K) :=
  (((t.map key).dedup).insertionSort r).map fun k =>
    AggRow.mk k (f (t.filter fun a => decide (key a = k)))

/-- The `count()` aggregate over a non-null column (row count). -/
def countA {A : Type} (l : List A) : ℚ := (l.length : ℚ)

/-- The `sum()` aggregate over the points column. -/
def sumA (l : List FactRow) : ℚ := sumPoints l

/-- The nlargest operation with the pandas default tie policy of keeping
first occurrences: the n rows
with largest value, stably sorted descending so that ties keep their
input order. -/
def topN {K : Type} (n : Nat) (t : List (AggRow K)) : List (AggRow K) :=
  (t.insertionSort valDesc).take n

/-- The rows excluded by `topN`. -/
def topNRest {K : Type} (n : Nat) (t : List (AggRow K)) : List (AggRow K) :=
  (t.insertionSort valDesc).drop n

/-- The ascending sort by value, applied before rendering the
horizontal bar charts. -/
def sortValuesAsc {K : Type} (t : List (AggRow K)) : List (AggRow K) :=
  t.insertionSort valAsc

/-- The running totals of a list of values: element i is the sum of the
first i+1 values. -/
def runningTotals : List ℚ → List ℚ
  | [] => []
  | x :: xs => x :: (runningTotals xs).map (fun y => x + y)

/-- Sum of the values of the rows of `pre` that fall in partition `k`. -/
def partSum {A K : Type} [DecidableEq K] (pkey : A → K) (val : A → ℚ)
    (pre : List A) (k : K) : ℚ :=
  ((pre.filter fun a => decide (pkey a = k)).map val).sum

/-- Worker for `cumsum`: pairs each row with the sum of the values of all
rows of its partition seen so far (itself included), walking the table in
order.  `pre` is the list of rows already consumed. -/
def cumsumGo {A K : Type} [DecidableEq K] (pkey : A → K) (val : A → ℚ)
    (pre : List A) : List A → List (A × ℚ)
  | [] => []
  | a :: rest =>
    (a, partSum pkey val (pre ++ [a]) (pkey a)) :: cumsumGo pkey val (pre ++ [a]) rest

/-- The partitioned cumulative sum: each row paired with the running
total of its partition, in table order. -/
def cumsum {A K : Type} [DecidableEq K] (pkey : A → K) (val : A → ℚ)
    (t : List A) : List (A × ℚ) :=
  cumsumGo pkey val [] t

/-! ## Per-chart pipelines and callbacks -/

/-- The combined year-range and name-selection mask used by the driver
and constructor callbacks: `(year >= lo) & (year <= hi) & name.isin(sel)`. -/
def rowSel (lo hi : Int) (sel : List String) (nameOf : FactRow → String)
    (r : FactRow) : Bool :=
  decide (lo ≤ r.year) && decide (r.year ≤ hi) && sel.contains (nameOf r)

/-- Grouping the filtered winners by (year, name) with a count aggregate
(wins per year per name), as in lines 695 and 753. -/
def winsGrouped (nameOf : FactRow → String) (t : List FactRow) :
    List (AggRow (Int × String)) :=
  aggregateBy ynKeyLe (fun r => (r.year, nameOf r)) countA t

/-- Lines 695-697 / 753-755: group wins by (year, name) and take the
running total within each name partition. -/
def winsOverTime (nameOf : FactRow → String) (t : List FactRow) :
    List (AggRow (Int × String) × ℚ) :=
  cumsum (fun g => g.key.2) AggRow.value (winsGrouped nameOf t)

/-- What a callback returns to the renderer: either a placeholder figure
with a message (`create_empty_figure`) or a chart built from a result
table. -/
inductive Fig (D : Type) where
  | placeholder (msg : String)
  | chart (data : D)
deriving DecidableEq

/-- True when a figure is the user-facing placeholder. -/
def isPlaceholder {D : Type} : Fig D → Bool
  | .placeholder _ => true
  | .chart _ => false

/-- update_driver_line_chart (lines 682-705): short-circuit on an empty
selection, filter winners by year range and selected names, short-circuit
on an empty filter result, otherwise chart the cumulative wins. -/
def update_driver_line_chart (winners : List FactRow) (yr : Int × Int)
    (sel : List String) : Fig (List (AggRow (Int × String) × ℚ)) :=
  if sel.isEmpty then
    .placeholder ("Please select a driver from the dropdown.")
  else
    let dff := winners.filter (rowSel yr.1 yr.2 sel (fun r => r.driver_name))
    if dff.isEmpty then
      .placeholder ("No wins for selected driver(s) in this period.")
    else
      .chart (winsOverTime (fun r => r.driver_name) dff)

/-- update_constructor_line_chart (lines 740-763), same shape on
name_constructor. -/
def update_constructor_line_chart (winners : List FactRow) (yr : Int × Int)
    (sel : List String) : Fig (List (AggRow (Int × String) × ℚ)) :=
  if sel.isEmpty then
    .placeholder ("Please select a constructor from the dropdown.")
  else
    let dff := winners.filter (rowSel yr.1 yr.2 sel (fun r => r.name_constructor))
    if dff.isEmpty then
      .placeholder ("No wins for selected constructor(s) in this period.")
    else
      .chart (winsOverTime (fun r => r.name_constructor) dff)

/-- The races-per-season figure of update_overview_graphs (lines 585-588):
the year-filtered table is grouped by year with a distinct-race-count
aggregate and handed straight to the bar-chart renderer; there is no
empty-result check on this path. -/
def update_overview_races_fig (df : List FactRow) (yr : Int × Int) :
    Fig (List (AggRow Int)) :=
  .chart (aggregateBy intKeyLe (fun r => r.year)
    (fun l => (countDistinct (fun r => r.raceId) l : ℚ))
    (filterByYear (fun r => r.year) yr.1 yr.2 df))

/-- The three KPI values of lines 576-578: distinct races and distinct
drivers over the year-filtered table, distinct constructors over the
whole unfiltered table. -/
def kpis (df : List FactRow) (lo hi : Int) : Nat × Nat × Nat :=
  ( countDistinct (fun r => r.raceId) (filterByYear (fun r => r.year) lo hi df),
    countDistinct (fun r => r.driverId) (filterByYear (fun r => r.year) lo hi df),
    countDistinct (fun r => r.constructorId) df )

/-- The year-range and single-circuit mask used by the circuit-tab
callbacks: (year >= lo) & (year <= hi) & (name_circuit == sel). -/
def circuitSel (lo hi : Int) (sel : String) (r : FactRow) : Bool :=
  decide (lo ≤ r.year) && decide (r.year ≤ hi) && decide (r.name_circuit = sel)

/-- update_circuit_winners_chart (lines 798-823): short-circuit on an
empty circuit selection, filter winners by year range and circuit,
short-circuit on an empty filter result, otherwise chart the top-10
winning drivers (distinct races won, stable top-10, re-sorted ascending
for the horizontal bars). -/
def update_circuit_winners_chart (winners : List FactRow) (yr : Int × Int)
    (sel : String) : Fig (List (AggRow String)) :=
  if sel = "" then
    .placeholder ("Please select a circuit from the dropdown.")
  else
    let dff := winners.filter (circuitSel yr.1 yr.2 sel)
    if dff.isEmpty then
      .placeholder ("No winners at this circuit in this period.")
    else
      .chart (sortValuesAsc (topN 10 (aggregateBy strKeyLe
        (fun r => r.driver_name)
        (fun l => (countDistinct (fun r => r.raceId) l : ℚ)) dff)))

/-- update_circuit_constructor_winners_chart (lines 830-855), same shape
grouped by constructor name. -/
def update_circuit_constructor_winners_chart (winners : List FactRow)
    (yr : Int × Int) (sel : String) : Fig (List (AggRow String)) :=
  if sel = "" then
    .placeholder ("Please select a circuit from the dropdown.")
  else
    let dff := winners.filter (circuitSel yr.1 yr.2 sel)
    if dff.isEmpty then
      .placeholder ("No winners at this circuit in this period.")
    else
      .chart (sortValuesAsc (topN 10 (aggregateBy strKeyLe
        (fun r => r.name_constructor)
        (fun l => (countDistinct (fun r => r.raceId) l : ℚ)) dff)))

/-- update_circuit_poles_chart (lines 862-887), same shape over the
pole-sitters view. -/
def update_circuit_poles_chart (poles : List FactRow) (yr : Int × Int)
    (sel : String) : Fig (List (AggRow String)) :=
  if sel = "" then
    .placeholder ("Please select a circuit from the dropdown.")
  else
    let dff := poles.filter (circuitSel yr.1 yr.2 sel)
    if dff.isEmpty then
      .placeholder ("No pole positions at this circuit in this period.")
    else
      .chart (sortValuesAsc (topN 10 (aggregateBy strKeyLe
        (fun r => r.driver_name)
        (fun l => (countDistinct (fun r => r.raceId) l : ℚ)) dff)))

/-! ## Pre-aggregated points tables (lines 52-53) and their
query-time filter (lines 716-720 / 774-778) -/

/-- The driver_points table: points summed by (year, driver_name). -/
def driverPointsTable (df : List FactRow) : List (AggRow (Int × String)) :=
  aggregateBy ynKeyLe (fun r => (r.year, r.driver_name)) sumA df

/-- The constructor_points table: points summed by (year, name_constructor). -/
def constructorPointsTable (df : List FactRow) : List (AggRow (Int × String)) :=
  aggregateBy ynKeyLe (fun r => (r.year, r.name_constructor)) sumA df

/-- The year-range and selection mask the points callbacks apply to a
pre-aggregated points table (its columns are year, name, points). -/
def aggSel (lo hi : Int) (sel : List String) (g : AggRow (Int × String)) : Bool :=
  decide (lo ≤ g.key.1) && decide (g.key.1 ≤ hi) && sel.contains g.key.2

/-! ## The loader (lines 16-76)

The try block reads the five files and builds the fact table, the derived
views, the points tables and the year range; the except branch catches
`FileNotFoundError` only and substitutes fixed empty tables and the
default year range 1950-2024.  Any other read-time error is not caught.
The loader outcome is modelled explicitly: a successful read of five
tables, a missing file, or any other read error. -/

/-- Minimum of a list of years, first element as the base case (the
populated branch only ever computes this over a non-empty table). -/
def yearsMin : List Int → Int
  | [] => 0
  | x :: xs => xs.foldl min x

/-- Maximum of a list of years. -/
def yearsMax : List Int → Int
  | [] => 0
  | x :: xs => xs.foldl max x

/-- Modelled from the spec: the column set of the Result table.  The
results.csv input file is not part of the repository; §3 of the spec
lists its fields as the race/driver/constructor references, finishing
position, points and starting grid position. -/
def resultsColumnsModel : List String :=
  ["raceId", "driverId", "constructorId", "position", "points", "grid"]

/-- The columns of the populated fact table: every Result column plus the
columns added by the four merges (with the rename/suffix
disambiguations). -/
def populatedDfColumns : List String :=
  resultsColumnsModel ++
    ["year", "name_race", "circuitId", "driver_name", "nationality_driver",
     "name_constructor", "nationality_constructor", "name_circuit", "country"]

/-- The fixed column list of the fallback empty `df` (line 69). -/
def fallbackDfColumns : List String :=
  ["year", "driver_name", "name_constructor", "points", "position", "name_race",
   "country", "driverId", "constructorId", "name_circuit", "nationality_driver",
   "nationality_constructor", "grid"]

/-- Everything the loading section produces for the rest of the program. -/
structure Dataset where
  df : List FactRow
  winners : List FactRow
  podiums : List FactRow
  poles : List FactRow
  constructor_points : List (AggRow (Int × String))
  driver_points : List (AggRow (Int × String))
  min_year : Int
  max_year : Int
  dfColumns : List String

/-- The try branch: build df, the three views, the two points tables and
the observed year range from the five loaded tables. -/
def buildDataset (tb : RawTables) : Dataset :=
  let df := buildDf tb
  { df := df
    winners := winnersOf df
    podiums := podiumsOf df
    poles := polesOf df
    constructor_points := constructorPointsTable df
    driver_points := driverPointsTable df
    min_year := yearsMin (df.map fun r => r.year)
    max_year := yearsMax (df.map fun r => r.year)
    dfColumns := populatedDfColumns }

/-- The except branch (lines 69-76): fixed empty tables and the default
year range 1950-2024. -/
def fallbackDataset : Dataset :=
  { df := []
    winners := []
    podiums := []
    poles := []
    constructor_points := []
    driver_points := []
    min_year := 1950
    max_year := 2024
    dfColumns := fallbackDfColumns }

/-- Outcome of attempting to read the five input files. -/
inductive ReadOutcome where
  | ok (tb : RawTables)
  | fileNotFound
  | otherReadError
deriving DecidableEq

/-- The loading section: a missing file (`FileNotFoundError`) is caught
and the fallback dataset substituted; any other read-time error (an
unreadable file, a parse error) matches no except clause and escapes to
the caller, modelled as `Except.error`. -/
def loadDataset : ReadOutcome → Except String Dataset
  | .ok tb => .ok (buildDataset tb)
  | .fileNotFound => .ok fallbackDataset
  | .otherReadError => .error ("unhandled exception")

/-- A fact-table row with every field at a neutral value; concrete test
rows override the fields they care about. -/
def blankRow : FactRow :=
  { raceId := 0
    driverId := 0
    constructorId := 0
    circuitId := 0
    year := 0
    name_race := ""
    driver_name := ""
    nationality_driver := ""
    name_constructor := ""
    nationality_constructor := ""
    name_circuit := ""
    country := ""
    position := none
    points := none
    grid := none }

/-- Sample winners table for concrete checks: driver A wins 3 races,
driver C wins 2, driver B wins 1. -/
def sampleWinners : List FactRow :=
  [{ blankRow with driver_name := "A", position := some 1 },
   { blankRow with driver_name := "A", position := some 1 },
   { blankRow with driver_name := "A", position := some 1 },
   { blankRow with driver_name := "B", position := some 1 },
   { blankRow with driver_name := "C", position := some 1 },
   { blankRow with driver_name := "C", position := some 1 }]

/-- Sample fact table for concrete checks of the points pipelines. -/
def samplePoints : List FactRow :=
  [{ blankRow with year := 1, driver_name := "A", points := some 4 },
   { blankRow with year := 1, driver_name := "A", points := some 2 },
   { blankRow with year := 2, driver_name := "B", points := some 1 }]

/-! # Theorems -/

/-- C2: the year-range filter keeps exactly the rows whose year lies in
[min_year, max_year], both ends inclusive (as a sub-sequence of the input
table), and an inverted range (min_year > max_year) yields an empty
result rather than an error. -/
theorem filterByYear_range_spec {A : Type} (yearOf : A → Int) (t : List A)
    (lo hi : Int) :
    (∀ r : A, r ∈ filterByYear yearOf lo hi t ↔
      r ∈ t ∧ (lo ≤ yearOf r ∧ yearOf r ≤ hi))
    ∧ List.Sublist (filterByYear yearOf lo hi t) t
    ∧ (hi < lo → filterByYear yearOf lo hi t = []) := by
  refine ⟨?_, List.filter_sublist t, ?_⟩
  · intro r
    simp [filterByYear, List.mem_filter]
  · intro h
    rw [filterByYear, List.filter_eq_nil_iff]
    intro a _
    simp only [Bool.and_eq_true, decide_eq_true_eq, not_and]
    intro h1
    omega

/-- Witness for C2 at a concrete inverted range. -/
theorem filterByYear_range_witness :
    filterByYear (fun r : FactRow => r.year) 3 2 [blankRow] = [] :=
  (filterByYear_range_spec (fun r => r.year) [blankRow] 3 2).2.2 (by decide)

/-- C5: an empty selection short-circuits to the explicit no-selection
placeholder; the winners table is not consulted (the result does not
depend on it). -/
theorem empty_selection_placeholder (w w' : List FactRow) (yr yr' : Int × Int) :
    update_driver_line_chart w yr [] =
      Fig.placeholder ("Please select a driver from the dropdown.")
    ∧ update_constructor_line_chart w yr [] =
      Fig.placeholder ("Please select a constructor from the dropdown.")
    ∧ update_driver_line_chart w yr [] = update_driver_line_chart w' yr' []
    ∧ update_constructor_line_chart w yr [] = update_constructor_line_chart w' yr' [] :=
  ⟨rfl, rfl, rfl, rfl⟩

/-- C7: the races and drivers KPIs are distinct counts over the
year-filtered fact table while the constructors KPI is the distinct count
over the entire unfiltered fact table, hence independent of the selected
year range. -/
theorem kpi_scoping (df : List FactRow) (lo hi lo' hi' : Int) :
    (kpis df lo hi).1 =
      countDistinct (fun r => r.raceId) (filterByYear (fun r => r.year) lo hi df)
    ∧ (kpis df lo hi).2.1 =
      countDistinct (fun r => r.driverId) (filterByYear (fun r => r.year) lo hi df)
    ∧ (kpis df lo hi).2.2 = countDistinct (fun r => r.constructorId) df
    ∧ (kpis df lo hi).2.2 = (kpis df lo' hi').2.2 :=
  ⟨rfl, rfl, rfl, rfl⟩

/-- C4 (amended): a missing input file (FileNotFoundError) is caught by
the loader, which substitutes empty tables with the fixed fallback column
list and the default year range 1950-2024; no exception reaches the
caller on this branch. -/
theorem loader_missing_file_fallback :
    loadDataset ReadOutcome.fileNotFound = Except.ok fallbackDataset
    ∧ fallbackDataset.df = [] ∧ fallbackDataset.winners = []
    ∧ fallbackDataset.podiums = [] ∧ fallbackDataset.poles = []
    ∧ fallbackDataset.constructor_points = [] ∧ fallbackDataset.driver_points = []
    ∧ fallbackDataset.min_year = 1950 ∧ fallbackDataset.max_year = 2024
    ∧ fallbackDataset.dfColumns = fallbackDfColumns :=
  ⟨rfl, rfl, rfl, rfl, rfl, rfl, rfl, rfl, rfl, rfl⟩

/-- C4 counterexample: the except clause catches FileNotFoundError only,
so a read error from an unreadable file escapes the loader; moreover the
fallback tables do not have the same column shape as the populated fact
table (raceId, used by the callbacks, is absent from the fallback column
list). -/
theorem loader_unreadable_not_caught :
    loadDataset ReadOutcome.otherReadError = Except.error ("unhandled exception")
    ∧ "raceId" ∈ populatedDfColumns
    ∧ "raceId" ∉ fallbackDfColumns :=
  ⟨rfl, by decide, by decide⟩

/-- C9: the winners/podiums/poles views keep only rows whose coerced
position (resp. grid) is a definite numeric value — rows whose field is
"no value" are excluded from these equality and membership filters — and
a "no value" points entry contributes zero to every points sum. -/
theorem coerced_fields_filter_semantics (df : List FactRow) :
    (∀ r ∈ winnersOf df, r.position = some 1)
    ∧ (∀ r ∈ podiumsOf df,
        r.position = some 1 ∨ r.position = some 2 ∨ r.position = some 3)
    ∧ (∀ r ∈ polesOf df, r.grid = some 1)
    ∧ winnersOf df = winnersOf (df.filter fun r => decide (r.position ≠ none))
    ∧ podiumsOf df = podiumsOf (df.filter fun r => decide (r.position ≠ none))
    ∧ polesOf df = polesOf (df.filter fun r => decide (r.grid ≠ none))
    ∧ sumPoints df = sumPoints (df.filter fun r => decide (r.points ≠ none)) := by
  refine ⟨?_, ?_, ?_, ?_, ?_, ?_, ?_⟩
  · intro r hr
    simp only [winnersOf, List.mem_filter, decide_eq_true_eq] at hr
    exact hr.2
  · intro r hr
    simp only [podiumsOf, List.mem_filter, Bool.or_eq_true, decide_eq_true_eq] at hr
    tauto
  · intro r hr
    simp only [polesOf, List.mem_filter, decide_eq_true_eq] at hr
    exact hr.2
  · rw [winnersOf, winnersOf, List.filter_filter]
    apply List.filter_congr
    intro r _
    by_cases h : r.position = some 1 <;> simp [h]
  · rw [podiumsOf, podiumsOf, List.filter_filter]
    apply List.filter_congr
    intro r _
    by_cases h1 : r.position = some 1
    · simp [h1]
    · by_cases h2 : r.position = some 2
      · simp [h2]
      · by_cases h3 : r.position = some 3 <;> simp [h1, h2, h3]
  · rw [polesOf, polesOf, List.filter_filter]
    apply List.filter_congr
    intro r _
    by_cases h : r.grid = some 1 <;> simp [h]
  · induction df with
    | nil => rfl
    | cons r t ih =>
      cases h : r.points with
      | none => simp [sumPoints, List.filter_cons, h] at ih ⊢; exact ih
      | some v => simp [sumPoints, List.filter_cons, h] at ih ⊢; exact ih

/-- Witness for C9 at a concrete winners row. -/
theorem coerced_fields_filter_witness :
    ({ blankRow with position := some 1 } : FactRow).position = some 1 :=
  (coerced_fields_filter_semantics [{ blankRow with position := some 1 }]).1 _
    (by decide)

/-- C6 (amended): an empty filter result propagates as an empty result
through grouping, top-N and the cumulative pipeline, and the driver,
constructor and circuit chart callbacks substitute the "no data"
placeholder when the filtered table is empty; the overview callback,
however, builds its chart directly from the (empty) aggregate with no
placeholder on that path. -/
theorem empty_filter_empty_downstream :
    (∀ n : Nat, topN n ([] : List (AggRow String)) = [])
    ∧ winsGrouped (fun r => r.driver_name) [] = []
    ∧ winsOverTime (fun r => r.driver_name) [] = []
    ∧ (∀ (w : List FactRow) (yr : Int × Int) (sel : List String), sel ≠ [] →
        w.filter (rowSel yr.1 yr.2 sel (fun r => r.driver_name)) = [] →
        update_driver_line_chart w yr sel =
          Fig.placeholder ("No wins for selected driver(s) in this period."))
    ∧ (∀ (w : List FactRow) (yr : Int × Int) (sel : List String), sel ≠ [] →
        w.filter (rowSel yr.1 yr.2 sel (fun r => r.name_constructor)) = [] →
        update_constructor_line_chart w yr sel =
          Fig.placeholder ("No wins for selected constructor(s) in this period."))
    ∧ (∀ (w : List FactRow) (yr : Int × Int) (sel : String), sel ≠ "" →
        w.filter (circuitSel yr.1 yr.2 sel) = [] →
        update_circuit_winners_chart w yr sel =
          Fig.placeholder ("No winners at this circuit in this period."))
    ∧ (∀ (w : List FactRow) (yr : Int × Int) (sel : String), sel ≠ "" →
        w.filter (circuitSel yr.1 yr.2 sel) = [] →
        update_circuit_constructor_winners_chart w yr sel =
          Fig.placeholder ("No winners at this circuit in this period."))
    ∧ (∀ (p : List FactRow) (yr : Int × Int) (sel : String), sel ≠ "" →
        p.filter (circuitSel yr.1 yr.2 sel) = [] →
        update_circuit_poles_chart p yr sel =
          Fig.placeholder ("No pole positions at this circuit in this period."))
    ∧ (∀ (df : List FactRow) (yr : Int × Int),
        filterByYear (fun r => r.year) yr.1 yr.2 df = [] →
        update_overview_races_fig df yr = Fig.chart []) := by
  refine ⟨?_, rfl, rfl, ?_, ?_, ?_, ?_, ?_, ?_⟩
  · intro n
    simp [topN]
  · intro w yr sel hsel hfil
    have h1 : sel.isEmpty = false := by
      cases sel with
      | nil => exact absurd rfl hsel
      | cons a l => rfl
    simp [update_driver_line_chart, h1, hfil]
  · intro w yr sel hsel hfil
    have h1 : sel.isEmpty = false := by
      cases sel with
      | nil => exact absurd rfl hsel
      | cons a l => rfl
    simp [update_constructor_line_chart, h1, hfil]
  · intro w yr sel hsel hfil
    simp [update_circuit_winners_chart, hsel, hfil]
  · intro w yr sel hsel hfil
    simp [update_circuit_constructor_winners_chart, hsel, hfil]
  · intro p yr sel hsel hfil
    simp [update_circuit_poles_chart, hsel, hfil]
  · intro df yr hfil
    rw [update_overview_races_fig, hfil]
    rfl

/-- Witness for C6 at a concrete empty filter result. -/
theorem empty_filter_empty_witness :
    update_driver_line_chart [] (0, 0) ["A"] =
      Fig.placeholder ("No wins for selected driver(s) in this period.") :=
  empty_filter_empty_downstream.2.2.2.1 [] (0, 0) ["A"] (by decide) rfl

/-- C6 counterexample: a year range matching no rows makes the overview
races-per-season figure an empty chart, not a placeholder. -/
theorem overview_no_placeholder_on_empty :
    filterByYear (fun r : FactRow => r.year) 5 6 [{ blankRow with year := 10 }] = []
    ∧ update_overview_races_fig [{ blankRow with year := 10 }] (5, 6) = Fig.chart []
    ∧ isPlaceholder (update_overview_races_fig [{ blankRow with year := 10 }] (5, 6)) =
        false :=
  ⟨by decide, by decide, by decide⟩

/-- A stable sort does not disturb a filtered subsequence whose members
are pairwise related: filtering the sorted list by such a predicate gives
exactly the filter of the input, in input order. -/
theorem insertionSort_filter_eq {α : Type} (r : α → α → Prop) [DecidableRel r]
    (t : List α) (p : α → Bool)
    (hp : ∀ a b, p a = true → p b = true → r a b) :
    (t.insertionSort r).filter p = t.filter p := by
  have hpair : (t.filter p).Pairwise r :=
    List.pairwise_of_forall_mem_list fun a ha b hb =>
      hp a b (List.mem_filter.mp ha).2 (List.mem_filter.mp hb).2
  have hsub : List.Sublist (t.filter p) (t.insertionSort r) :=
    List.sublist_insertionSort hpair (List.filter_sublist t)
  have hself : (t.filter p).filter p = t.filter p :=
    List.filter_eq_self.mpr fun a ha => (List.mem_filter.mp ha).2
  have hsub2 : List.Sublist (t.filter p) ((t.insertionSort r).filter p) := by
    have h2 := List.Sublist.filter p hsub
    rwa [hself] at h2
  have hlen : ((t.insertionSort r).filter p).length = (t.filter p).length :=
    ((List.perm_insertionSort r t).filter p).length_eq
  exact (hsub2.eq_of_length hlen.symm).symm

/-- C1: the aggregate-then-top-N pipeline returns at most N rows; the
returned and excluded rows together are exactly the aggregate table;
every returned aggregate value is at least every excluded one; rows with
equal values keep their relative input order (the returned rows of any
given value are a prefix, in order, of the aggregate rows of that
value); and the list handed to the horizontal-bar renderer is the top-N
result re-sorted ascending by value. -/
theorem topN_ranking_spec {A : Type} (t : List A) (key : A → String) (n : Nat) :
    (topN n (aggregateBy strKeyLe key countA t)).length ≤ n
    ∧ List.Perm
        (topN n (aggregateBy strKeyLe key countA t) ++
          topNRest n (aggregateBy strKeyLe key countA t))
        (aggregateBy strKeyLe key countA t)
    ∧ (∀ a ∈ topN n (aggregateBy strKeyLe key countA t),
        ∀ b ∈ topNRest n (aggregateBy strKeyLe key countA t), b.value ≤ a.value)
    ∧ (∀ v : ℚ, List.IsPrefix
        ((topN n (aggregateBy strKeyLe key countA t)).filter fun g =>
          decide (g.value = v))
        ((aggregateBy strKeyLe key countA t).filter fun g => decide (g.value = v)))
    ∧ List.Perm (sortValuesAsc (topN n (aggregateBy strKeyLe key countA t)))
        (topN n (aggregateBy strKeyLe key countA t))
    ∧ List.Sorted valAsc (sortValuesAsc (topN n (aggregateBy strKeyLe key countA t))) := by
  set l := aggregateBy strKeyLe key countA t with hl
  refine ⟨?_, ?_, ?_, ?_, ?_, ?_⟩
  · rw [topN, List.length_take]
    exact min_le_left _ _
  · rw [topN, topNRest, List.take_append_drop]
    exact List.perm_insertionSort valDesc l
  · intro a ha b hb
    exact List.Sorted.rel_of_mem_take_of_mem_drop
      (List.sorted_insertionSort valDesc l) ha hb
  · intro v
    have hstab := insertionSort_filter_eq valDesc l (fun g => decide (g.value = v))
      (fun a b ha hb => by
        simp only [decide_eq_true_eq] at ha hb
        show b.value ≤ a.value
        rw [ha, hb])
    have hpre : List.IsPrefix ((topN n l).filter (fun g => decide (g.value = v)))
        ((l.insertionSort valDesc).filter fun g => decide (g.value = v)) :=
      List.IsPrefix.filter _ ( List.take_prefix n _)
    rwa [hstab] at hpre
  · exact List.perm_insertionSort valAsc _
  · exact List.sorted_insertionSort valAsc _

/-- Witness for C1 on the sample winners table (driver A: 3 wins, C: 2,
B: 1; N = 2): the returned value of A dominates the excluded value of B. -/
theorem topN_ranking_witness :
    (AggRow.mk ("B") (1 : ℚ)).value ≤ (AggRow.mk ("A") (3 : ℚ)).value :=
  (topN_ranking_spec sampleWinners (fun r => r.driver_name) 2).2.2.1
    (AggRow.mk ("A") 3) (by decide) (AggRow.mk ("B") 1) (by decide)

/-- Filtering an inner merge by a predicate on the left component is the
same as merging the filtered left table. -/
theorem mergeOn_filter_left {A B : Type} (kL : A → Nat) (kR : B → Nat)
    (L : List A) (R : List B) (p : A × B → Bool) (q : A → Bool)
    (hpq : ∀ a b, p (a, b) = q a) :
    (mergeOn kL kR L R).filter p = mergeOn kL kR (L.filter q) R := by
  induction L with
  | nil => rfl
  | cons a L ih =>
    rw [mergeOn, List.flatMap_cons, List.filter_append]
    rw [List.filter_map]
    have hconst : ((R.filter fun b => kR b == kL a).filter
        ((fun x => p x) ∘ (fun b => (a, b)))) =
        if q a then R.filter fun b => kR b == kL a else [] := by
      cases hqa : q a with
      | true =>
        rw [if_pos rfl]
        apply List.filter_eq_self.mpr
        intro b _
        show p (a, b) = true
        rw [hpq a b, hqa]
      | false =>
        rw [if_neg (by simp)]
        apply List.filter_eq_nil_iff.mpr
        intro b _
        show ¬ p (a, b) = true
        rw [hpq a b, hqa]
        simp
    rw [hconst, List.filter_cons]
    cases hqa : q a with
    | true =>
      rw [if_pos rfl, if_pos (by simp [hqa])]
      rw [mergeOn, List.flatMap_cons]
      rw [mergeOn] at ih
      rw [ih, mergeOn]
    | false =>
      rw [if_neg (by simp), if_neg (by simp [hqa])]
      rw [List.map_nil, List.nil_append]
      rw [mergeOn] at ih ⊢
      exact ih

/-- C8: filtering the joined fact table for winners (position == 1)
equals joining after first filtering the raw Result table for
position == 1 — the equi-joins on foreign keys commute with a filter on
a Result-only column. -/
theorem join_filter_commute (tb : RawTables) :
    winnersOf (buildDf tb) =
      buildDf { tb with
        results := tb.results.filter fun r => decide (r.position = some 1) } := by
  rw [winnersOf, buildDf, buildDf, List.filter_map]
  rw [joinAll]
  rw [mergeOn_filter_left _ _ _ _ _
    (fun x => decide (x.1.1.1.position = some 1)) (fun _ _ => rfl)]
  rw [mergeOn_filter_left _ _ _ _ _
    (fun x => decide (x.1.1.position = some 1)) (fun _ _ => rfl)]
  rw [mergeOn_filter_left _ _ _ _ _
    (fun x => decide (x.1.position = some 1)) (fun _ _ => rfl)]
  rw [mergeOn_filter_left _ _ _ _ _
    (fun r => decide (r.position = some 1)) (fun _ _ => rfl)]
  rw [joinAll]

/-- Two duplicate-free lists sorted by an antisymmetric relation with the
same members are equal. -/
theorem sorted_nodup_mem_eq {K : Type} {r : K → K → Prop} [IsAntisymm K r] :
    ∀ {l₁ l₂ : List K}, List.Sorted r l₁ → List.Sorted r l₂ →
      l₁.Nodup → l₂.Nodup → (∀ k, k ∈ l₁ ↔ k ∈ l₂) → l₁ = l₂ := by
  intro l₁
  induction l₁ with
  | nil =>
    intro l₂ _ _ _ _ hm
    cases l₂ with
    | nil => rfl
    | cons b m => exact absurd ((hm b).mpr (List.mem_cons_self b m)) (List.not_mem_nil b)
  | cons a l ih =>
    intro l₂ hs₁ hs₂ hn₁ hn₂ hm
    cases l₂ with
    | nil => exact absurd ((hm a).mp (List.mem_cons_self a l)) (List.not_mem_nil a)
    | cons b m =>
      have hab : a = b := by
        have ha : a ∈ b :: m := (hm a).mp (List.mem_cons_self a l)
        have hb : b ∈ a :: l := (hm b).mpr (List.mem_cons_self b m)
        rcases List.mem_cons.mp ha with h | ha'
        · exact h
        · rcases List.mem_cons.mp hb with h | hb'
          · exact h.symm
          · exact antisymm (List.rel_of_sorted_cons hs₁ b hb')
              (List.rel_of_sorted_cons hs₂ a ha')
      subst hab
      have hmem : ∀ k, k ∈ l ↔ k ∈ m := by
        intro k
        constructor
        · intro hk
          have hka : k ≠ a := fun h => (List.nodup_cons.mp hn₁).1 (h ▸ hk)
          rcases List.mem_cons.mp ((hm k).mp (List.mem_cons_of_mem a hk)) with h | h
          · exact absurd h hka
          · exact h
        · intro hk
          have hka : k ≠ a := fun h => (List.nodup_cons.mp hn₂).1 (h ▸ hk)
          rcases List.mem_cons.mp ((hm k).mpr (List.mem_cons_of_mem a hk)) with h | h
          · exact absurd h hka
          · exact h
      rw [ih (List.Sorted.of_cons hs₁) (List.Sorted.of_cons hs₂)
        (List.nodup_cons.mp hn₁).2 (List.nodup_cons.mp hn₂).2 hmem]

/-- Filtering a group-aggregate by a predicate on the group key commutes
with the aggregation: it equals aggregating the key-filtered rows. -/
theorem aggregateBy_filter_commute {A K : Type} [DecidableEq K]
    (r : K → K → Prop) [DecidableRel r] [IsTotal K r] [IsTrans K r] [IsAntisymm K r]
    (key : A → K) (f : List A → ℚ) (t : List A) (p : K → Bool) :
    (aggregateBy r key f t).filter (fun g => p g.key) =
      aggregateBy r key f (t.filter fun a => p (key a)) := by
  rw [aggregateBy, aggregateBy, List.filter_map]
  have hkeys : ((((t.map key).dedup.insertionSort r)).filter
        ((fun g : AggRow K => p g.key) ∘ fun k =>
          AggRow.mk k (f (t.filter fun a => decide (key a = k))))) =
      (((t.filter fun a => p (key a)).map key).dedup.insertionSort r) := by
    have hform : ((fun g : AggRow K => p g.key) ∘ fun k =>
        AggRow.mk k (f (t.filter fun a => decide (key a = k)))) = p := rfl
    rw [hform]
    apply sorted_nodup_mem_eq (r := r)
    · exact List.Sorted.filter p (List.sorted_insertionSort r _)
    · exact List.sorted_insertionSort r _
    · exact List.Nodup.filter _
        (((List.perm_insertionSort r _).nodup_iff).mpr (List.nodup_dedup _))
    · exact ((List.perm_insertionSort r _).nodup_iff).mpr (List.nodup_dedup _)
    · intro k
      simp only [List.mem_filter, List.mem_insertionSort, List.mem_dedup, List.mem_map]
      constructor
      · rintro ⟨⟨a, ha, rfl⟩, hp⟩
        exact ⟨a, ⟨ha, hp⟩, rfl⟩
      · rintro ⟨a, ⟨ha, hp⟩, rfl⟩
        exact ⟨⟨a, ha, rfl⟩, hp⟩
  rw [hkeys]
  apply List.map_congr_left
  intro k hk
  have hpk : p k = true := by
    have h1 : k ∈ (t.filter fun a => p (key a)).map key :=
      List.mem_dedup.mp ((List.mem_insertionSort r).mp hk)
    rcases List.mem_map.mp h1 with ⟨a, ha, rfl⟩
    exact (List.mem_filter.mp ha).2
  have hgroup : (t.filter fun a => p (key a)).filter (fun a => decide (key a = k)) =
      t.filter fun a => decide (key a = k) := by
    rw [List.filter_filter]
    apply List.filter_congr
    intro a _
    by_cases hak : key a = k
    · rw [hak]
      simp [hpk]
    · simp [hak]
  rw [hgroup]

/-- C10: the query-time year-range and name-selection filter applied to
the startup pre-aggregated per-season points tables gives the same
result as filtering the fact table first and then group-summing points
by (year, name) — the pre-aggregation commutes with later filtering
because year and name are the group keys. -/
theorem points_preagg_commute (df : List FactRow) (lo hi : Int)
    (sel : List String) (_hsel : sel ≠ []) :
    (driverPointsTable df).filter (aggSel lo hi sel) =
      driverPointsTable (df.filter (rowSel lo hi sel (fun r => r.driver_name)))
    ∧ (constructorPointsTable df).filter (aggSel lo hi sel) =
      constructorPointsTable
        (df.filter (rowSel lo hi sel (fun r => r.name_constructor))) := by
  constructor
  · exact aggregateBy_filter_commute ynKeyLe
      (fun r : FactRow => (r.year, r.driver_name)) sumA df
      (fun k => decide (lo ≤ k.1) && decide (k.1 ≤ hi) && sel.contains k.2)
  · exact aggregateBy_filter_commute ynKeyLe
      (fun r : FactRow => (r.year, r.name_constructor)) sumA df
      (fun k => decide (lo ≤ k.1) && decide (k.1 ≤ hi) && sel.contains k.2)

/-- Witness for C10 on the sample points table. -/
theorem points_preagg_witness :
    (driverPointsTable samplePoints).filter (aggSel 0 2 ["A"]) =
      driverPointsTable
        (samplePoints.filter (rowSel 0 2 ["A"] (fun r => r.driver_name))) :=
  (points_preagg_commute samplePoints 0 2 ["A"] (by decide)).1

/-- Shifting every element by a constant shifts `getLastD` by it. -/
theorem map_add_getLastD (x d : ℚ) : ∀ (l : List ℚ),
    (l.map fun y => x + y).getLastD (x + d) = x + l.getLastD d
  | [] => rfl
  | y :: ys => by
    rw [List.map_cons, List.getLastD_cons, List.getLastD_cons]
    exact map_add_getLastD x y ys

/-- The last running total is the sum of the whole list. -/
theorem runningTotals_getLastD (l : List ℚ) :
    (runningTotals l).getLastD 0 = l.sum := by
  induction l with
  | nil => rfl
  | cons x xs ih =>
    rw [runningTotals, List.sum_cons, List.getLastD_cons]
    have h1 : ((runningTotals xs).map fun y => x + y).getLastD (x + 0)
        = x + (runningTotals xs).getLastD 0 := map_add_getLastD x 0 (runningTotals xs)
    rw [add_zero] at h1
    rw [h1, ih]

/-- Running totals of non-negative values are non-negative. -/
theorem runningTotals_nonneg (l : List ℚ) (h : ∀ x ∈ l, 0 ≤ x) :
    ∀ y ∈ runningTotals l, 0 ≤ y := by
  induction l with
  | nil => intro y hy; simp [runningTotals] at hy
  | cons x xs ih =>
    intro y hy
    rw [runningTotals] at hy
    rcases List.mem_cons.mp hy with rfl | hy'
    · exact h _ (List.mem_cons_self _ _)
    · rcases List.mem_map.mp hy' with ⟨z, hz, rfl⟩
      have h0 : 0 ≤ z := ih (fun w hw => h w (List.mem_cons_of_mem x hw)) z hz
      have hx : 0 ≤ x := h x (List.mem_cons_self x xs)
      exact add_nonneg hx h0

/-- Running totals of non-negative values are non-decreasing. -/
theorem runningTotals_chain (l : List ℚ) (h : ∀ x ∈ l, 0 ≤ x) :
    List.Chain' (fun a b => a ≤ b) (runningTotals l) := by
  induction l with
  | nil => exact List.chain'_nil
  | cons x xs ih =>
    rw [runningTotals]
    have hch : List.Chain' (fun a b => a ≤ b)
        ((runningTotals xs).map fun y => x + y) := by
      apply List.chain'_map_of_chain' _ ?_
        (ih fun y hy => h y (List.mem_cons_of_mem x hy))
      intro a b hab
      exact add_le_add_left hab x
    cases hrt : runningTotals xs with
    | nil =>
      rw [List.map_nil]
      exact List.chain'_singleton x
    | cons y ys =>
      rw [List.map_cons]
      apply List.chain'_cons.mpr
      constructor
      · have hy : 0 ≤ y := runningTotals_nonneg xs
          (fun w hw => h w (List.mem_cons_of_mem x hw)) y
          (by rw [hrt]; exact List.mem_cons_self y ys)
        calc x = x + 0 := (add_zero x).symm
          _ ≤ x + y := add_le_add_left hy x
      · rw [hrt, List.map_cons] at hch
        exact hch

/-- Appending a row of the partition adds its value to the partition
prefix sum. -/
theorem partSum_append_eq {A K : Type} [DecidableEq K] (pkey : A → K)
    (val : A → ℚ) (pre : List A) (a : A) (k : K) (h : pkey a = k) :
    partSum pkey val (pre ++ [a]) k = partSum pkey val pre k + val a := by
  rw [partSum, partSum, List.filter_append, List.map_append, List.sum_append]
  simp [h]

/-- Appending a row of another partition leaves the prefix sum unchanged. -/
theorem partSum_append_ne {A K : Type} [DecidableEq K] (pkey : A → K)
    (val : A → ℚ) (pre : List A) (a : A) (k : K) (h : ¬ pkey a = k) :
    partSum pkey val (pre ++ [a]) k = partSum pkey val pre k := by
  rw [partSum, partSum, List.filter_append, List.map_append, List.sum_append]
  simp [h]

/-- The first components of the cumulative-sum output are the input rows. -/
theorem cumsumGo_fst {A K : Type} [DecidableEq K] (pkey : A → K) (val : A → ℚ) :
    ∀ (rest pre : List A), (cumsumGo pkey val pre rest).map Prod.fst = rest
  | [], _ => rfl
  | a :: rest, pre => by
    rw [cumsumGo, List.map_cons]
    rw [cumsumGo_fst pkey val rest (pre ++ [a])]

/-- The cumulative column restricted to one partition is the running
totals of the values of that partition, shifted by the prefix already seen. -/
theorem cumsumGo_filter_snd {A K : Type} [DecidableEq K] (pkey : A → K)
    (val : A → ℚ) (k : K) :
    ∀ (rest pre : List A),
      ((cumsumGo pkey val pre rest).filter fun x => decide (pkey x.1 = k)).map
          Prod.snd
        = (runningTotals ((rest.filter fun a => decide (pkey a = k)).map val)).map
            (fun y => partSum pkey val pre k + y)
  | [], _ => rfl
  | a :: rest, pre => by
    rw [cumsumGo, List.filter_cons]
    by_cases hak : pkey a = k
    · rw [if_pos (by simp [hak]), List.map_cons]
      rw [cumsumGo_filter_snd pkey val k rest (pre ++ [a])]
      rw [List.filter_cons]
      rw [if_pos (by simp [hak]), List.map_cons, runningTotals, List.map_cons]
      rw [List.map_map]
      show (partSum pkey val (pre ++ [a]) (pkey a)) :: _ = (partSum pkey val pre k + val a) :: _
      rw [hak, partSum_append_eq pkey val pre a k hak]
      congr 1
      apply List.map_congr_left
      intro y _
      show partSum pkey val pre k + val a + y = partSum pkey val pre k + (val a + y)
      rw [add_assoc]
    · rw [if_neg (by simp [hak])]
      rw [cumsumGo_filter_snd pkey val k rest (pre ++ [a])]
      rw [partSum_append_ne pkey val pre a k hak]
      rw [List.filter_cons, if_neg (by simp [hak])]

/-- Filtering pairs by a predicate on the first component commutes with
projecting the first components. -/
theorem filter_fst_map {A B : Type} (q : A → Bool) (l : List (A × B)) :
    (l.filter fun x => q x.1).map Prod.fst = (l.map Prod.fst).filter q := by
  induction l with
  | nil => rfl
  | cons a l ih =>
    rw [List.map_cons, List.filter_cons, List.filter_cons]
    by_cases h : q a.1
    · rw [if_pos (by simp [h]), if_pos (by simp [h]), List.map_cons, ih]
    · rw [if_neg (by simp [h]), if_neg (by simp [h]), ih]

/-- Restricting the cumulative output to one partition and projecting the
rows gives the rows of the partition, in order. -/
theorem cumsum_filter_fst {A K : Type} [DecidableEq K] (pkey : A → K)
    (val : A → ℚ) (t : List A) (k : K) :
    ((cumsum pkey val t).filter fun x => decide (pkey x.1 = k)).map Prod.fst
      = t.filter fun a => decide (pkey a = k) := by
  calc ((cumsum pkey val t).filter fun x => decide (pkey x.1 = k)).map Prod.fst
      = ((cumsum pkey val t).map Prod.fst).filter fun a => decide (pkey a = k) :=
        filter_fst_map (fun a => decide (pkey a = k)) (cumsum pkey val t)
    _ = t.filter fun a => decide (pkey a = k) := by
        rw [cumsum, cumsumGo_fst]

/-- C3: in the wins-over-time pipeline (group wins by (year, name), then
cumulative-sum within each name partition), every partition is ordered by
year ascending and carries the running sum of its value column; the last
cumulative value of a partition equals the sum of all its values, and the
cumulative values are non-decreasing whenever the values are all
non-negative. -/
theorem cumulative_partition_spec (nameOf : FactRow → String) (t : List FactRow)
    (name : String) :
    ((winsOverTime nameOf t).filter fun x => decide (x.1.key.2 = name)).map Prod.fst
      = ((winsGrouped nameOf t).filter fun g => decide (g.key.2 = name))
    ∧ List.Pairwise (fun x y => x.1.key.1 ≤ y.1.key.1)
        ((winsOverTime nameOf t).filter fun x => decide (x.1.key.2 = name))
    ∧ ((winsOverTime nameOf t).filter fun x => decide (x.1.key.2 = name)).map
          Prod.snd
        = runningTotals
            (((winsGrouped nameOf t).filter fun g => decide (g.key.2 = name)).map
              AggRow.value)
    ∧ (((winsOverTime nameOf t).filter fun x => decide (x.1.key.2 = name)).map
          Prod.snd).getLastD 0
        = (((winsGrouped nameOf t).filter fun g => decide (g.key.2 = name)).map
            AggRow.value).sum
    ∧ ((∀ g ∈ winsGrouped nameOf t, 0 ≤ g.value) →
        List.Chain' (fun a b => a ≤ b)
          (((winsOverTime nameOf t).filter fun x => decide (x.1.key.2 = name)).map
            Prod.snd)) := by
  have hfst : ((winsOverTime nameOf t).filter fun x =>
        decide (x.1.key.2 = name)).map Prod.fst
      = (winsGrouped nameOf t).filter fun g => decide (g.key.2 = name) :=
    cumsum_filter_fst (fun g : AggRow (Int × String) => g.key.2) AggRow.value
      (winsGrouped nameOf t) name
  have hmapzero : ∀ (l : List ℚ), (l.map fun y => (0 : ℚ) + y) = l := by
    intro l
    simp
  have hsnd : ((winsOverTime nameOf t).filter fun x =>
        decide (x.1.key.2 = name)).map Prod.snd
      = runningTotals
          (((winsGrouped nameOf t).filter fun g => decide (g.key.2 = name)).map
            AggRow.value) := by
    have hb := cumsumGo_filter_snd (fun g : AggRow (Int × String) => g.key.2)
      AggRow.value name (winsGrouped nameOf t) []
    have hzero : partSum (fun g : AggRow (Int × String) => g.key.2) AggRow.value
        [] name = 0 := rfl
    rw [hzero] at hb
    rw [winsOverTime, cumsum, hb, hmapzero]
  refine ⟨hfst, ?_, hsnd, ?_, ?_⟩
  · have hsorted : List.Pairwise
        (fun g h : AggRow (Int × String) => ynKeyLe g.key h.key)
        (winsGrouped nameOf t) := by
      rw [winsGrouped, aggregateBy]
      exact List.pairwise_map.mpr (List.sorted_insertionSort ynKeyLe _)
    have hfp := List.Pairwise.filter (fun g => decide (g.key.2 = name)) hsorted
    have hyear : List.Pairwise
        (fun g h : AggRow (Int × String) => g.key.1 ≤ h.key.1)
        ((winsGrouped nameOf t).filter fun g => decide (g.key.2 = name)) := by
      apply List.Pairwise.imp_of_mem ?_ hfp
      intro a b _ _ hr
      rcases hr with h | ⟨h, _⟩
      · exact le_of_lt h
      · exact le_of_eq h
    rw [← hfst] at hyear
    exact List.Pairwise.of_map Prod.fst (fun a b h => h) hyear
  · rw [hsnd, runningTotals_getLastD]
  · intro hnn
    rw [hsnd]
    apply runningTotals_chain
    intro x hx
    rcases List.mem_map.mp hx with ⟨g, hg, rfl⟩
    exact hnn g (List.mem_of_mem_filter hg)

/-- Witness for C3: on a two-row winners table the cumulative column of
partition "A" is non-decreasing; the non-negativity hypothesis is checked
concretely. -/
theorem cumulative_partition_witness :
    List.Chain' (fun a b => a ≤ b)
      (((winsOverTime (fun r => r.driver_name)
          [{ blankRow with year := 1, driver_name := "A" },
           { blankRow with year := 2, driver_name := "A" }]).filter fun x =>
        decide (x.1.key.2 = "A")).map Prod.snd) :=
  (cumulative_partition_spec (fun r => r.driver_name)
    [{ blankRow with year := 1, driver_name := "A" },
     { blankRow with year := 2, driver_name := "A" }] "A").2.2.2.2 (by decide)

end F1
